import Mathlib

/-!
Verification of the MAC-address / PHY-mode resolution module
(`drivers/of/of_net.c`): a shallow embedding of the resolver, the vendor
serial-derived MAC generator and the byte-reversal transform, together with
theorems about the fallback chain, validity checking, reference counting and
the generation arithmetic.

External collaborators (device-tree property reader, device lookup, nvmem
reader, allocator) are modelled as oracles recorded in an environment; the
control flow of the C functions is translated branch by branch.
-/

/-- Ethernet address length in bytes (`ETH_ALEN`). -/
def ETH_ALEN : Nat := 6

/-- Error number `EINVAL` (property not present, reported by the tree reader). -/
def EINVAL : Int := 22

/-- Error number `ENODEV`. -/
def ENODEV : Int := 19

/-- Error number `ENOMEM`. -/
def ENOMEM : Int := 12

/-- A C pointer result as used in this file: `NULL`, a valid pointer to a byte
buffer, or an `ERR_PTR` encoding a negative error number. -/
inductive CPtr where
  | null : CPtr
  | ok (bytes : List Nat) : CPtr
  | errp (code : Int) : CPtr
deriving DecidableEq, Repr

/-- The C truth test `if (addr)`: every non-`NULL` pointer, including an
`ERR_PTR`, is truthy. -/
def isNonNull : CPtr → Bool
  | CPtr.null => false
  | CPtr.ok _ => true
  | CPtr.errp _ => true

/-- View of one device-tree node through the external tree-reader collaborator:
raw byte properties (`of_find_property`), string properties
(`of_property_read_string`) and u32 properties (`of_property_read_u32`),
each reported as present-with-value or absent. -/
structure OfNode where
  prop : String → Option (List Nat)
  strProp : String → Option String
  u32Prop : String → Option Nat

/-- The external state a resolution call reads: the node it was called on, the
root node (`of_find_node_by_path "/"`), whether `of_find_device_by_node`
finds a device for the node, the outcome of the nvmem collaborator, whether
`devm_kmemdup` succeeds, and whether the vendor feature (`NUM_TRIO_MACS`)
is compiled in. -/
structure Env where
  node : OfNode
  root : Option OfNode
  findDevice : Bool
  nvmem : Except Int (List Nat)
  allocOk : Bool
  trioCompiled : Bool

/-- Modelled from the spec: `is_multicast_ether_addr` (linux/etherdevice.h, not
part of this file) — the multicast bit is the least-significant bit of the
first byte. -/
def is_multicast_ether_addr (a : List Nat) : Bool :=
  (a.headD 0) &&& 1 == 1

/-- Modelled from the spec: `is_zero_ether_addr` (linux/etherdevice.h, not part
of this file) — every byte of the address is zero. -/
def is_zero_ether_addr (a : List Nat) : Bool :=
  a.all (· == 0)

/-- Modelled from the spec: `is_valid_ether_addr` (linux/etherdevice.h, not
part of this file) — not multicast (unicast bit convention) and not the
all-zero address. -/
def is_valid_ether_addr (a : List Nat) : Bool :=
  !is_multicast_ether_addr a && !is_zero_ether_addr a

/-- Model of `of_get_mac_addr`: look up a named property; yield its bytes only when the
length is exactly `ETH_ALEN` and the address passes `is_valid_ether_addr`,
otherwise `NULL`. -/
def of_get_mac_addr (np : OfNode) (name : String) : CPtr :=
  match np.prop name with
  | some pp =>
      if pp.length == ETH_ALEN && is_valid_ether_addr pp then CPtr.ok pp
      else CPtr.null
  | none => CPtr.null

/-- Model of `of_get_mac_addr_nvmem`, with the device reference count made explicit:
the second component is the final reference count given the count `rc` at
entry (`of_find_device_by_node` acquires one reference, `put_device`
releases one). -/
def of_get_mac_addr_nvmem (env : Env) (rc : Int) : CPtr × Int :=
  if env.findDevice then
    let rc := rc + 1
    match env.nvmem with
    | Except.error ret => (CPtr.errp ret, rc - 1)
    | Except.ok nvmem_mac =>
        let rc := rc - 1
        if env.allocOk then (CPtr.ok nvmem_mac, rc)
        else (CPtr.errp (-ENOMEM), rc)
  else (CPtr.errp (-ENODEV), rc)

/-- Modelled from the spec: the integer parser used on the root
"serial-number" string (kernel `kstrtoll` with base 0, `lib/kstrtox.c`, not
part of this file): optional sign, auto-detected base (a `0x`/`0X` prefix
selects 16, a remaining leading `0` selects 8, otherwise 10), at least one
digit, no trailing garbage, and failure outside the signed 64-bit range. -/
def digitVal (base : Nat) (c : Char) : Option Nat :=
  let v : Option Nat :=
    if '0' ≤ c ∧ c ≤ '9' then some (c.toNat - 48)
    else if 'a' ≤ c ∧ c ≤ 'f' then some (c.toNat - 87)
    else if 'A' ≤ c ∧ c ≤ 'F' then some (c.toNat - 55)
    else none
  match v with
  | some d => if d < base then some d else none
  | none => none

/-- Accumulate the digits of `cs` in the given base; fail at the first
non-digit. -/
def parseDigits (base : Nat) : List Char → Nat → Option Nat
  | [], acc => some acc
  | c :: cs, acc =>
      match digitVal base c with
      | some d => parseDigits base cs (acc * base + d)
      | none => none

/-- Parse a non-empty all-digit string in the given base. -/
def parseUnsigned (base : Nat) (cs : List Char) : Option Nat :=
  match cs with
  | [] => none
  | _ :: _ => parseDigits base cs 0

/-- Modelled from the spec: `kstrtoll(s, 0, ...)` — see `digitVal`. Returns
`none` where the kernel parser reports an error. -/
def kstrtoll (s : String) : Option Int :=
  let step1 : Bool × List Char :=
    match s.data with
    | '-' :: rest => (true, rest)
    | '+' :: rest => (false, rest)
    | cs => (false, cs)
  let neg := step1.1
  let step2 : Nat × List Char :=
    match step1.2 with
    | '0' :: 'x' :: rest => (16, rest)
    | '0' :: 'X' :: rest => (16, rest)
    | '0' :: rest => (8, '0' :: rest)
    | cs => (10, cs)
  match parseUnsigned step2.1 step2.2 with
  | none => none
  | some n =>
      if n ≥ 2 ^ 64 then none
      else if neg then
        if n > 2 ^ 63 then none else some (-(n : Int))
      else
        if n ≥ 2 ^ 63 then none else some (n : Int)

/-- The vendor reserved 48-bit base address (`BASE_MAC_ADDRESS`). -/
def BASE_MAC_ADDRESS : Int := 0x001EFBF80001

/-- Number of addresses carved out per unit of serial number
(`NUM_TRIO_MACS`). -/
def NUM_TRIO_MACS : Int := 2

/-- Conversion of a signed 64-bit value to `u64` (two-complement wraparound). -/
def u64_of_int (i : Int) : Nat := (i % (2 ^ 64 : Int)).toNat

/-- Conversion of a `u32` value to the C `int` it becomes when passed to
`trio_generate_mac`. -/
def u32_to_int (n : Nat) : Int :=
  if n < 2 ^ 31 then (n : Int) else (n : Int) - 2 ^ 32

/-- Model of `trio_generate_mac`: start from `BASE_MAC_ADDRESS + idx`; when the root
node and its "serial-number" string are available, parse the serial, clamp
a failed parse or an out-of-range value (below 1 or at/above 229375) to 0,
and recompute `BASE_MAC_ADDRESS + serial * NUM_TRIO_MACS + idx`. -/
def trio_generate_mac (env : Env) (idx : Int) : Nat :=
  match env.root with
  | none => u64_of_int (BASE_MAC_ADDRESS + idx)
  | some root =>
      match root.strProp ("serial-number") with
      | none => u64_of_int (BASE_MAC_ADDRESS + idx)
      | some pserial =>
          let serial_num : Int :=
            match kstrtoll pserial with
            | none => 0
            | some v => if v < 1 ∨ 229375 ≤ v then 0 else v
          u64_of_int (BASE_MAC_ADDRESS + serial_num * NUM_TRIO_MACS + idx)

/-- Model of `return_trio_mac`: public accessor for the generated address. -/
def return_trio_mac (env : Env) (idx : Int) : Nat :=
  trio_generate_mac env idx

/-- The byte-order reversal of the bottom 6 bytes performed inside
`return_trio_mac_reversed`, exactly as the C expression sequence computes
it on a `u64` (left shifts wrap at 64 bits before masking). -/
def trio_reverse (forward : Nat) : Nat :=
  (((((((forward >>> 40) &&& 0x00000000000000FF) |||
    ((forward >>> 24) &&& 0x000000000000FF00)) |||
    ((forward >>> 8) &&& 0x0000000000FF0000)) |||
    (((forward <<< 8) % 2 ^ 64) &&& 0x00000000FF000000)) |||
    (((forward <<< 24) % 2 ^ 64) &&& 0x000000FF00000000)) |||
    (((forward <<< 40) % 2 ^ 64) &&& 0x0000FF0000000000))

/-- Model of `return_trio_mac_reversed`: the generated address with the byte order of
the bottom 6 bytes reversed. -/
def return_trio_mac_reversed (env : Env) (idx : Int) : Nat :=
  trio_reverse (return_trio_mac env idx)

/-- Byte `i` (counting from the least significant) of a `u64` value, as the C
code extracts it with shifts and `& 0xff`. -/
def macByte (x : Nat) (i : Nat) : Nat := (x >>> (8 * i)) &&& 0xFF

/-- Model of `of_get_trio_mac_addr`, with the device reference count made explicit as
in `of_get_mac_addr_nvmem`. The early `return NULL` when "trio-mac-idx"
cannot be read performs no `put_device`. -/
def of_get_trio_mac_addr (env : Env) (rc : Int) : CPtr × Int :=
  if env.findDevice then
    let rc := rc + 1
    match env.node.u32Prop ("trio-mac-idx") with
    | some idx =>
        let val := return_trio_mac env (u32_to_int idx)
        let trio_mac := [macByte val 5, macByte val 4, macByte val 3,
                         macByte val 2, macByte val 1, macByte val 0]
        let rc := rc - 1
        if env.allocOk then (CPtr.ok trio_mac, rc)
        else (CPtr.errp (-ENOMEM), rc)
    | none => (CPtr.null, rc)
  else (CPtr.errp (-ENODEV), rc)

/-- Model of `of_get_mac_address`: the ordered fallback chain. Each `if (addr)` test is
the C pointer truth test, so an `ERR_PTR` escaping from a step is returned
to the caller. The vendor step is present only when the feature is
compiled in. -/
def of_get_mac_address (env : Env) : CPtr :=
  let addr := of_get_mac_addr env.node ("mac-address")
  if isNonNull addr then addr else
  let addr := if env.trioCompiled then (of_get_trio_mac_addr env 0).1 else CPtr.null
  if isNonNull addr then addr else
  let addr := of_get_mac_addr env.node ("local-mac-address")
  if isNonNull addr then addr else
  let addr := of_get_mac_addr env.node ("address")
  if isNonNull addr then addr else
  let addr := of_get_mac_addr env.node ("nvmem-mac-address")
  if isNonNull addr then addr else
  (of_get_mac_addr_nvmem env 0).1

/-- Modelled from the spec: ASCII lowering used by the case-insensitive
comparison (`strcasecmp`, lib/string.c, not part of this file). -/
def asciiLower (c : Char) : Char :=
  if 'A' ≤ c ∧ c ≤ 'Z' then Char.ofNat (c.toNat + 32) else c

/-- Modelled from the spec: `strcasecmp(a, b) == 0` — the two strings are
equal after ASCII case folding. -/
def strcaseEq (a b : String) : Bool :=
  a.data.map asciiLower == b.data.map asciiLower

/-- The table scan of `of_get_phy_mode`: return the index of the first entry
matching case-insensitively, or `-ENODEV` when none does. -/
def phyLoop (pm : String) : List String → Nat → Int
  | [], _ => -ENODEV
  | m :: rest, k => if strcaseEq pm m then (k : Int) else phyLoop pm rest (k + 1)

/-- Model of `of_get_phy_mode`: read "phy-mode", falling back to
"phy-connection-type"; when neither is present return the error of the tree reader (`-EINVAL`, modelled from the spec for the external collaborator);
otherwise scan the mode-name table. The table (`phy_modes`,
linux/phy.h, not part of this file) is passed as a parameter. -/
def of_get_phy_mode (phy_modes : List String) (np : OfNode) : Int :=
  match np.strProp ("phy-mode") with
  | some pm => phyLoop pm phy_modes 0
  | none =>
      match np.strProp ("phy-connection-type") with
      | some pm => phyLoop pm phy_modes 0
      | none => -EINVAL

/-! Bit-level helper lemmas for the byte-reversal transform. -/

lemma land_byteMask (y n : Nat) :
    y &&& ((2 ^ 8 - 1) <<< n) = ((y >>> n) % 2 ^ 8) <<< n := by
  apply Nat.eq_of_testBit_eq
  intro i
  simp only [Nat.testBit_and, Nat.testBit_shiftLeft, Nat.testBit_two_pow_sub_one,
    Nat.testBit_mod_two_pow, Nat.testBit_shiftRight, ge_iff_le]
  by_cases h : n ≤ i
  · have hni : n + (i - n) = i := by omega
    simp only [h, decide_True, Bool.true_and, hni]
    cases Nat.testBit y i <;> simp
  · simp [h]

lemma lor_lo_hi (a c : Nat) (k : Nat) (h : a < 2 ^ k) :
    (a ||| c * 2 ^ k) = c * 2 ^ k + a := by
  rw [Nat.or_comm, Nat.mul_comm c (2 ^ k)]
  exact (Nat.mul_add_lt_is_or h c).symm

set_option maxHeartbeats 1000000 in
lemma trio_reverse_bytes (b0 b1 b2 b3 b4 b5 : Nat)
    (h0 : b0 < 256) (h1 : b1 < 256) (h2 : b2 < 256)
    (h3 : b3 < 256) (h4 : b4 < 256) (h5 : b5 < 256) :
    trio_reverse (b5 * 2 ^ 40 + b4 * 2 ^ 32 + b3 * 2 ^ 24 + b2 * 2 ^ 16 + b1 * 2 ^ 8 + b0)
      = b0 * 2 ^ 40 + b1 * 2 ^ 32 + b2 * 2 ^ 24 + b3 * 2 ^ 16 + b4 * 2 ^ 8 + b5 := by
  have e1 : (0x00000000000000FF : Nat) = (2 ^ 8 - 1) <<< 0 := rfl
  have e2 : (0x000000000000FF00 : Nat) = (2 ^ 8 - 1) <<< 8 := rfl
  have e3 : (0x0000000000FF0000 : Nat) = (2 ^ 8 - 1) <<< 16 := rfl
  have e4 : (0x00000000FF000000 : Nat) = (2 ^ 8 - 1) <<< 24 := rfl
  have e5 : (0x000000FF00000000 : Nat) = (2 ^ 8 - 1) <<< 32 := rfl
  have e6 : (0x0000FF0000000000 : Nat) = (2 ^ 8 - 1) <<< 40 := rfl
  unfold trio_reverse
  rw [e1, e2, e3, e4, e5, e6]
  rw [land_byteMask, land_byteMask, land_byteMask, land_byteMask, land_byteMask,
    land_byteMask]
  simp only [Nat.shiftLeft_eq, Nat.shiftRight_eq_div_pow]
  have t1 : (b5 * 2 ^ 40 + b4 * 2 ^ 32 + b3 * 2 ^ 24 + b2 * 2 ^ 16 + b1 * 2 ^ 8 + b0) / 2 ^ 40 / 2 ^ 0 % 2 ^ 8 * 2 ^ 0 = b5 := by omega
  have t2 : (b5 * 2 ^ 40 + b4 * 2 ^ 32 + b3 * 2 ^ 24 + b2 * 2 ^ 16 + b1 * 2 ^ 8 + b0) / 2 ^ 24 / 2 ^ 8 % 2 ^ 8 * 2 ^ 8 = b4 * 2 ^ 8 := by omega
  have t3 : (b5 * 2 ^ 40 + b4 * 2 ^ 32 + b3 * 2 ^ 24 + b2 * 2 ^ 16 + b1 * 2 ^ 8 + b0) / 2 ^ 8 / 2 ^ 16 % 2 ^ 8 * 2 ^ 16 = b3 * 2 ^ 16 := by omega
  have t4 : (b5 * 2 ^ 40 + b4 * 2 ^ 32 + b3 * 2 ^ 24 + b2 * 2 ^ 16 + b1 * 2 ^ 8 + b0) * 2 ^ 8 % 2 ^ 64 / 2 ^ 24 % 2 ^ 8 * 2 ^ 24 = b2 * 2 ^ 24 := by omega
  have t5 : (b5 * 2 ^ 40 + b4 * 2 ^ 32 + b3 * 2 ^ 24 + b2 * 2 ^ 16 + b1 * 2 ^ 8 + b0) * 2 ^ 24 % 2 ^ 64 / 2 ^ 32 % 2 ^ 8 * 2 ^ 32 = b1 * 2 ^ 32 := by omega
  have t6 : (b5 * 2 ^ 40 + b4 * 2 ^ 32 + b3 * 2 ^ 24 + b2 * 2 ^ 16 + b1 * 2 ^ 8 + b0) * 2 ^ 40 % 2 ^ 64 / 2 ^ 40 % 2 ^ 8 * 2 ^ 40 = b0 * 2 ^ 40 := by omega
  rw [t1, t2, t3, t4, t5, t6]
  clear t1 t2 t3 t4 t5 t6 e1 e2 e3 e4 e5 e6
  rw [lor_lo_hi b5 b4 8 (by omega)]
  rw [lor_lo_hi (b4 * 2 ^ 8 + b5) b3 16 (by omega)]
  rw [lor_lo_hi (b3 * 2 ^ 16 + (b4 * 2 ^ 8 + b5)) b2 24 (by omega)]
  rw [lor_lo_hi (b2 * 2 ^ 24 + (b3 * 2 ^ 16 + (b4 * 2 ^ 8 + b5))) b1 32 (by omega)]
  rw [lor_lo_hi (b1 * 2 ^ 32 + (b2 * 2 ^ 24 + (b3 * 2 ^ 16 + (b4 * 2 ^ 8 + b5)))) b0 40
    (by omega)]
  omega
lemma digits_unique (u0 u1 u2 u3 u4 u5 v0 v1 v2 v3 v4 v5 : Nat)
    (hu0 : u0 < 256) (hu1 : u1 < 256) (hu2 : u2 < 256) (hu3 : u3 < 256)
    (hu4 : u4 < 256) (hu5 : u5 < 256)
    (hv0 : v0 < 256) (hv1 : v1 < 256) (hv2 : v2 < 256) (hv3 : v3 < 256)
    (hv4 : v4 < 256) (hv5 : v5 < 256)
    (h : u0 * 2 ^ 40 + u1 * 2 ^ 32 + u2 * 2 ^ 24 + u3 * 2 ^ 16 + u4 * 2 ^ 8 + u5
       = v0 * 2 ^ 40 + v1 * 2 ^ 32 + v2 * 2 ^ 24 + v3 * 2 ^ 16 + v4 * 2 ^ 8 + v5) :
    u0 = v0 ∧ u1 = v1 ∧ u2 = v2 ∧ u3 = v3 ∧ u4 = v4 ∧ u5 = v5 := by
  omega

set_option maxHeartbeats 1000000 in
/-- C6: the byte-order reversal in return_trio_mac_reversed is self-inverse on
48-bit values, and moves any value whose 6 bytes are not a palindrome. -/
theorem trio_reverse_involution (x : Nat) (hx : x < 2 ^ 48) :
    trio_reverse (trio_reverse x) = x ∧
    (¬(macByte x 0 = macByte x 5 ∧ macByte x 1 = macByte x 4 ∧
        macByte x 2 = macByte x 3) → trio_reverse x ≠ x) := by
  have h255 : ∀ y : Nat, y &&& 255 = y % 256 := fun y => Nat.and_pow_two_sub_one_eq_mod y 8
  have hdec : x = x / 2 ^ 40 % 256 * 2 ^ 40 + x / 2 ^ 32 % 256 * 2 ^ 32 +
      x / 2 ^ 24 % 256 * 2 ^ 24 + x / 2 ^ 16 % 256 * 2 ^ 16 +
      x / 2 ^ 8 % 256 * 2 ^ 8 + x % 256 := by omega
  have k1 := trio_reverse_bytes (x % 256) (x / 2 ^ 8 % 256) (x / 2 ^ 16 % 256)
    (x / 2 ^ 24 % 256) (x / 2 ^ 32 % 256) (x / 2 ^ 40 % 256)
    (by omega) (by omega) (by omega) (by omega) (by omega) (by omega)
  rw [← hdec] at k1
  constructor
  · have k2 := trio_reverse_bytes (x / 2 ^ 40 % 256) (x / 2 ^ 32 % 256) (x / 2 ^ 24 % 256)
      (x / 2 ^ 16 % 256) (x / 2 ^ 8 % 256) (x % 256)
      (by omega) (by omega) (by omega) (by omega) (by omega) (by omega)
    rw [k1, k2]
    omega
  · intro hpal heq
    rw [k1] at heq
    have m0 : macByte x 0 = x % 256 := by
      unfold macByte
      rw [h255, Nat.shiftRight_eq_div_pow]
      omega
    have m1 : macByte x 1 = x / 2 ^ 8 % 256 := by
      unfold macByte
      rw [h255, Nat.shiftRight_eq_div_pow]
    have m2 : macByte x 2 = x / 2 ^ 16 % 256 := by
      unfold macByte
      rw [h255, Nat.shiftRight_eq_div_pow]
    have m3 : macByte x 3 = x / 2 ^ 24 % 256 := by
      unfold macByte
      rw [h255, Nat.shiftRight_eq_div_pow]
    have m4 : macByte x 4 = x / 2 ^ 32 % 256 := by
      unfold macByte
      rw [h255, Nat.shiftRight_eq_div_pow]
    have m5 : macByte x 5 = x / 2 ^ 40 % 256 := by
      unfold macByte
      rw [h255, Nat.shiftRight_eq_div_pow]
    have hu := digits_unique (x % 256) (x / 2 ^ 8 % 256) (x / 2 ^ 16 % 256)
      (x / 2 ^ 24 % 256) (x / 2 ^ 32 % 256) (x / 2 ^ 40 % 256)
      (x / 2 ^ 40 % 256) (x / 2 ^ 32 % 256) (x / 2 ^ 24 % 256)
      (x / 2 ^ 16 % 256) (x / 2 ^ 8 % 256) (x % 256)
      (by omega) (by omega) (by omega) (by omega) (by omega) (by omega)
      (by omega) (by omega) (by omega) (by omega) (by omega) (by omega)
      (heq.trans hdec)
    exact hpal ⟨m0.trans (hu.1.trans m5.symm),
      m1.trans (hu.2.1.trans m4.symm),
      m2.trans (hu.2.2.1.trans m3.symm)⟩

/-- C10: for every tree state and index, the value returned by
return_trio_mac_reversed fits in 48 bits: its upper 16 bits are zero. -/
theorem return_trio_mac_reversed_fits (env : Env) (idx : Int) :
    return_trio_mac_reversed env idx < 2 ^ 48 ∧
    return_trio_mac_reversed env idx >>> 48 = 0 := by
  have h : ∀ y : Nat, trio_reverse y < 2 ^ 48 := by
    intro y
    unfold trio_reverse
    apply Nat.or_lt_two_pow
    apply Nat.or_lt_two_pow
    apply Nat.or_lt_two_pow
    apply Nat.or_lt_two_pow
    apply Nat.or_lt_two_pow
    all_goals exact Nat.and_lt_two_pow _ (by norm_num)
  refine ⟨h _, ?_⟩
  have hb := h (return_trio_mac env idx)
  unfold return_trio_mac_reversed
  rw [Nat.shiftRight_eq_div_pow]
  omega

/-- Witness for the C6 theorem at the concrete value 0x001122334455, whose
bytes are not palindromic. -/
theorem trio_reverse_involution_witness :
    trio_reverse (trio_reverse 0x001122334455) = 0x001122334455 ∧
    trio_reverse 0x001122334455 ≠ 0x001122334455 := by
  have h := trio_reverse_involution 0x001122334455 (by norm_num)
  exact ⟨h.1, h.2 (by decide)⟩
lemma u32_to_int_bounds (n : Nat) (h : n < 2 ^ 32) :
    -(2 ^ 31) ≤ u32_to_int n ∧ u32_to_int n < 2 ^ 31 := by
  unfold u32_to_int
  split <;> omega

lemma trio_generate_mac_bound (env : Env) (i : Int)
    (hlo : -(2 ^ 31) ≤ i) (hhi : i < 2 ^ 31) :
    0 < trio_generate_mac env i ∧ trio_generate_mac env i < 2 ^ 40 := by
  unfold trio_generate_mac u64_of_int BASE_MAC_ADDRESS NUM_TRIO_MACS
  cases henv : env.root with
  | none => simp only [henv]; omega
  | some root =>
    simp only [henv]
    cases hs : root.strProp ("serial-number") with
    | none => simp only [hs]; omega
    | some ps =>
      simp only [hs]
      cases hk : kstrtoll ps with
      | none => simp only [hk]; omega
      | some v =>
        simp only [hk]
        by_cases hv : v < 1 ∨ 229375 ≤ v
        · rw [if_pos hv]; omega
        · rw [if_neg hv]; omega
def exRootSerial5 : OfNode :=
  { prop := fun _ => none,
    strProp := fun name => if name = "serial-number" then some ("5") else none,
    u32Prop := fun _ => none }

def exEnvScenarioB : Env :=
  { node := { prop := fun _ => none, strProp := fun _ => none,
              u32Prop := fun name => if name = "trio-mac-idx" then some 1 else none },
    root := some exRootSerial5, findDevice := true, nvmem := Except.error (-5),
    allocOk := true, trioCompiled := true }

def exRootSerialNeg1 : OfNode :=
  { prop := fun _ => none,
    strProp := fun name => if name = "serial-number" then some ("-1") else none,
    u32Prop := fun _ => none }

def exEnvSerialNeg1 : Env :=
  { node := { prop := fun _ => none, strProp := fun _ => none, u32Prop := fun _ => none },
    root := some exRootSerialNeg1, findDevice := true, nvmem := Except.error (-5),
    allocOk := true, trioCompiled := true }

/-- C3: for an in-range serial and any index, the generated value is
base + serial * NUM_TRIO_MACS + idx. -/
theorem trio_generate_mac_formula (env : Env) (idx : Int) (r : OfNode) (s : String) (v : Int)
    (hroot : env.root = some r) (hs : r.strProp ("serial-number") = some s)
    (hv : kstrtoll s = some v) (hv1 : 1 ≤ v) (hv2 : v < 229375)
    (hi0 : 0 ≤ idx) (hi : idx < 2 ^ 31) :
    trio_generate_mac env idx = (BASE_MAC_ADDRESS + v * NUM_TRIO_MACS + idx).toNat := by
  unfold trio_generate_mac u64_of_int
  simp only [hroot, hs, hv]
  rw [if_neg (by omega)]
  unfold BASE_MAC_ADDRESS NUM_TRIO_MACS
  omega

/-- Witness for C3: scenario B, serial-number "5" and index 1 generate
0x001EFBF8000C. -/
theorem trio_generate_mac_formula_witness :
    trio_generate_mac exEnvScenarioB 1 = 0x001EFBF8000C := by
  have h := trio_generate_mac_formula exEnvScenarioB 1 exRootSerial5 ("5") 5
    rfl rfl (by decide) (by decide) (by decide) (by decide) (by decide)
  rw [h]
  decide

/-- C5: an unparsable or out-of-range serial degrades to 0 without failing;
in-range serials 1 and 229374 are used as-is; the boundary strings parse
as stated. -/
theorem trio_generate_mac_range_policy (env : Env) (idx : Int) (r : OfNode) (s : String)
    (hroot : env.root = some r) (hs : r.strProp ("serial-number") = some s)
    (hi0 : 0 ≤ idx) (hi : idx < 2 ^ 31) :
    (kstrtoll s = none → trio_generate_mac env idx = (BASE_MAC_ADDRESS + idx).toNat) ∧
    (∀ v : Int, kstrtoll s = some v → v < 1 ∨ 229375 ≤ v →
      trio_generate_mac env idx = (BASE_MAC_ADDRESS + idx).toNat) ∧
    (∀ v : Int, kstrtoll s = some v → 1 ≤ v → v < 229375 →
      trio_generate_mac env idx = (BASE_MAC_ADDRESS + v * NUM_TRIO_MACS + idx).toNat) ∧
    kstrtoll ("0") = some 0 ∧ kstrtoll ("229375") = some 229375 ∧
    kstrtoll ("-1") = some (-1) ∧ kstrtoll ("1") = some 1 ∧
    kstrtoll ("229374") = some 229374 := by
  refine ⟨?_, ?_, ?_, by decide, by decide, by decide, by decide, by decide⟩
  · intro hk
    unfold trio_generate_mac u64_of_int
    simp only [hroot, hs, hk]
    unfold BASE_MAC_ADDRESS
    omega
  · intro v hk hrange
    unfold trio_generate_mac u64_of_int
    simp only [hroot, hs, hk]
    rw [if_pos hrange]
    unfold BASE_MAC_ADDRESS NUM_TRIO_MACS
    omega
  · intro v hk h1 h2
    unfold trio_generate_mac u64_of_int
    simp only [hroot, hs, hk]
    rw [if_neg (by omega)]
    unfold BASE_MAC_ADDRESS NUM_TRIO_MACS
    omega

/-- Witness for C5: the serial string "-1" degrades to serial 0. -/
theorem trio_generate_mac_range_policy_witness :
    trio_generate_mac exEnvSerialNeg1 0 = (BASE_MAC_ADDRESS + 0).toNat := by
  have h := trio_generate_mac_range_policy exEnvSerialNeg1 0 exRootSerialNeg1 ("-1")
    rfl rfl (by decide) (by decide)
  exact h.2.1 (-1) (by decide) (by decide)
set_option maxHeartbeats 1000000 in
/-- C4: whenever the vendor step runs (device found, index readable,
allocation succeeds), the returned 6-byte buffer has first byte 0x00 and
passes the validity check, for any index and any serial state. -/
theorem of_get_trio_mac_addr_valid (env : Env) (idx : Nat)
    (hfind : env.findDevice = true)
    (hprop : env.node.u32Prop ("trio-mac-idx") = some idx)
    (hidx : idx < 2 ^ 32) (halloc : env.allocOk = true) :
    ∃ bytes, (of_get_trio_mac_addr env 0).1 = CPtr.ok bytes ∧
      bytes.headD 0 = 0 ∧ is_valid_ether_addr bytes = true := by
  have hb := trio_generate_mac_bound env (u32_to_int idx)
    (u32_to_int_bounds idx hidx).1 (u32_to_int_bounds idx hidx).2
  have hrb : return_trio_mac env (u32_to_int idx) = trio_generate_mac env (u32_to_int idx) := rfl
  unfold of_get_trio_mac_addr
  simp only [hfind, hprop, halloc, if_true]
  refine ⟨_, rfl, ?_, ?_⟩
  · rw [hrb]
    have h255 : ∀ y : Nat, y &&& 255 = y % 256 :=
      fun y => Nat.and_pow_two_sub_one_eq_mod y 8
    show macByte (trio_generate_mac env (u32_to_int idx)) 5 = 0
    unfold macByte
    rw [h255, Nat.shiftRight_eq_div_pow]
    omega
  · rw [hrb]
    have h255 : ∀ y : Nat, y &&& 255 = y % 256 :=
      fun y => Nat.and_pow_two_sub_one_eq_mod y 8
    have m5 : macByte (trio_generate_mac env (u32_to_int idx)) 5
        = trio_generate_mac env (u32_to_int idx) / 2 ^ 40 % 256 := by
      unfold macByte
      rw [h255, Nat.shiftRight_eq_div_pow]
    have m4 : macByte (trio_generate_mac env (u32_to_int idx)) 4
        = trio_generate_mac env (u32_to_int idx) / 2 ^ 32 % 256 := by
      unfold macByte
      rw [h255, Nat.shiftRight_eq_div_pow]
    have m3 : macByte (trio_generate_mac env (u32_to_int idx)) 3
        = trio_generate_mac env (u32_to_int idx) / 2 ^ 24 % 256 := by
      unfold macByte
      rw [h255, Nat.shiftRight_eq_div_pow]
    have m2 : macByte (trio_generate_mac env (u32_to_int idx)) 2
        = trio_generate_mac env (u32_to_int idx) / 2 ^ 16 % 256 := by
      unfold macByte
      rw [h255, Nat.shiftRight_eq_div_pow]
    have m1 : macByte (trio_generate_mac env (u32_to_int idx)) 1
        = trio_generate_mac env (u32_to_int idx) / 2 ^ 8 % 256 := by
      unfold macByte
      rw [h255, Nat.shiftRight_eq_div_pow]
    have m0 : macByte (trio_generate_mac env (u32_to_int idx)) 0
        = trio_generate_mac env (u32_to_int idx) % 256 := by
      unfold macByte
      rw [h255, Nat.shiftRight_eq_div_pow]
      omega
    unfold is_valid_ether_addr is_multicast_ether_addr is_zero_ether_addr
    simp only [List.headD, List.all_cons, List.all_nil, Bool.and_true]
    rw [m0, m1, m2, m3, m4, m5]
    have hmul : (trio_generate_mac env (u32_to_int idx) / 2 ^ 40 % 256 &&& 1 == 1) = false := by
      have : trio_generate_mac env (u32_to_int idx) / 2 ^ 40 % 256 = 0 := by omega
      rw [this]
      decide
    rw [hmul]
    have hz : ((trio_generate_mac env (u32_to_int idx) / 2 ^ 40 % 256 == 0) &&
        ((trio_generate_mac env (u32_to_int idx) / 2 ^ 32 % 256 == 0) &&
        ((trio_generate_mac env (u32_to_int idx) / 2 ^ 24 % 256 == 0) &&
        ((trio_generate_mac env (u32_to_int idx) / 2 ^ 16 % 256 == 0) &&
        ((trio_generate_mac env (u32_to_int idx) / 2 ^ 8 % 256 == 0) &&
        (trio_generate_mac env (u32_to_int idx) % 256 == 0)))))) = false := by
      simp only [Bool.and_eq_false_eq_eq_false_or_eq_false, beq_eq_false_iff_ne, ne_eq]
      omega
    rw [hz]
    decide
/-- Witness for C4: scenario B produces 00:1E:FB:F8:00:0C, which is valid. -/
theorem of_get_trio_mac_addr_valid_witness :
    (of_get_trio_mac_addr exEnvScenarioB 0).1
      = CPtr.ok [0x00, 0x1E, 0xFB, 0xF8, 0x00, 0x0C] ∧
    is_valid_ether_addr [0x00, 0x1E, 0xFB, 0xF8, 0x00, 0x0C] = true := by
  obtain ⟨bytes, h1, h2, h3⟩ :=
    of_get_trio_mac_addr_valid exEnvScenarioB 1 rfl rfl (by decide) rfl
  exact ⟨by decide, by decide⟩

def exEnvLeak : Env :=
  { node := { prop := fun _ => none, strProp := fun _ => none, u32Prop := fun _ => none },
    root := none, findDevice := true, nvmem := Except.error (-5),
    allocOk := true, trioCompiled := true }

/-- C2 (refutation): with the device found and "trio-mac-idx" absent,
of_get_trio_mac_addr returns NULL leaving the device reference count one
higher than at entry, while of_get_mac_addr_nvmem stays balanced on the
same environment. -/
theorem trio_refcount_unbalanced :
    (of_get_trio_mac_addr exEnvLeak 0).2 = 1 ∧
    (of_get_mac_addr_nvmem exEnvLeak 0).2 = 0 := by
  decide

def exNodeLocalOnly : OfNode :=
  { prop := fun name => if name = "local-mac-address" then some [0x00, 0x11, 0x22, 0x33, 0x44, 0x55] else none,
    strProp := fun _ => none, u32Prop := fun _ => none }

def exEnvC1 : Env :=
  { node := exNodeLocalOnly, root := none, findDevice := false,
    nvmem := Except.error (-5), allocOk := true, trioCompiled := true }

/-- Counterexample to C1: with the vendor feature compiled in and the device
lookup failing, of_get_mac_address returns ERR_PTR(-ENODEV) although
"local-mac-address" holds a valid address. -/
theorem mac_fallback_skip_counterexample :
    of_get_mac_address exEnvC1 = CPtr.errp (-ENODEV) ∧
    of_get_mac_addr exEnvC1.node ("local-mac-address")
      = CPtr.ok [0x00, 0x11, 0x22, 0x33, 0x44, 0x55] := by
  decide

/-- C1 (amended): a failed device lookup or allocation in the vendor step is
returned to the caller as the error of that step; resolution continues with the
later steps only when the device was found and "trio-mac-idx" is absent. -/
theorem mac_fallback_error_propagation (env : Env)
    (htrio : env.trioCompiled = true)
    (hmac : of_get_mac_addr env.node ("mac-address") = CPtr.null) :
    (env.findDevice = false → of_get_mac_address env = CPtr.errp (-ENODEV)) ∧
    (∀ idx : Nat, env.findDevice = true →
      env.node.u32Prop ("trio-mac-idx") = some idx → env.allocOk = false →
      of_get_mac_address env = CPtr.errp (-ENOMEM)) ∧
    (env.findDevice = true → env.node.u32Prop ("trio-mac-idx") = none →
      of_get_mac_address env = of_get_mac_address { env with trioCompiled := false }) := by
  refine ⟨?_, ?_, ?_⟩
  · intro hfind
    unfold of_get_mac_address of_get_trio_mac_addr
    simp [hmac, htrio, hfind, isNonNull]
  · intro idx hfind hprop halloc
    unfold of_get_mac_address of_get_trio_mac_addr
    simp [hmac, htrio, hfind, hprop, halloc, isNonNull]
  · intro hfind hprop
    unfold of_get_mac_address of_get_trio_mac_addr
    have hnv : of_get_mac_addr_nvmem { env with findDevice := true, trioCompiled := false } 0
        = of_get_mac_addr_nvmem env 0 := by
      unfold of_get_mac_addr_nvmem
      rw [hfind]
    simp [hmac, htrio, hfind, hprop, isNonNull]
    rw [hnv]

/-- Witness for the amended C1 at the counterexample environment. -/
theorem mac_fallback_error_propagation_witness :
    of_get_mac_address exEnvC1 = CPtr.errp (-ENODEV) :=
  (mac_fallback_error_propagation exEnvC1 rfl (by decide)).1 rfl

def exNodeBothProps : OfNode :=
  { prop := fun name => if name = "mac-address" then some [0x00, 0x01, 0x02, 0x03, 0x04, 0x05] else if name = "local-mac-address" then some [0x00, 0x11, 0x22, 0x33, 0x44, 0x55] else none,
    strProp := fun _ => none, u32Prop := fun _ => none }

def exEnvBothProps : Env :=
  { node := exNodeBothProps, root := none, findDevice := false,
    nvmem := Except.error (-5), allocOk := true, trioCompiled := true }

/-- C7: a valid "mac-address" property is returned as-is, before any other
source is consulted. -/
theorem mac_address_first_priority (env : Env) (bytes : List Nat)
    (h : of_get_mac_addr env.node ("mac-address") = CPtr.ok bytes) :
    of_get_mac_address env = CPtr.ok bytes := by
  unfold of_get_mac_address
  rw [h]
  rfl

/-- Witness for C7: "mac-address" wins over a valid, different
"local-mac-address". -/
theorem mac_address_first_priority_witness :
    of_get_mac_address exEnvBothProps = CPtr.ok [0x00, 0x01, 0x02, 0x03, 0x04, 0x05] :=
  mac_address_first_priority exEnvBothProps [0x00, 0x01, 0x02, 0x03, 0x04, 0x05] (by decide)

/-- C8: the shared per-property check yields NULL on any candidate of wrong
length, on the all-zero address, and on any address whose first byte has
its least-significant (multicast) bit set. -/
theorem of_get_mac_addr_rejects (np : OfNode) (name : String) (pp : List Nat)
    (hp : np.prop name = some pp)
    (hbad : pp.length ≠ ETH_ALEN ∨ is_zero_ether_addr pp = true ∨
      (pp.headD 0) % 2 = 1) :
    of_get_mac_addr np name = CPtr.null := by
  unfold of_get_mac_addr
  rw [hp]
  have hfalse : (pp.length == ETH_ALEN && is_valid_ether_addr pp) = false := by
    rcases hbad with h | h | h
    · simp [h]
    · unfold is_valid_ether_addr
      simp [h]
    · have hmc : is_multicast_ether_addr pp = true := by
        unfold is_multicast_ether_addr
        rw [Nat.and_one_is_mod, h]
        rfl
      unfold is_valid_ether_addr
      rw [hmc]
      simp
  simp [hfalse]

def exNodeShort : OfNode :=
  { prop := fun name => if name = "mac-address" then some [1, 2, 3] else none,
    strProp := fun _ => none, u32Prop := fun _ => none }

/-- Witness for C8: a 3-byte candidate is rejected. -/
theorem of_get_mac_addr_rejects_witness :
    of_get_mac_addr exNodeShort ("mac-address") = CPtr.null :=
  of_get_mac_addr_rejects exNodeShort ("mac-address") [1, 2, 3] (by decide)
    (Or.inl (by decide))
lemma phyLoop_no_match (pm : String) (l : List String) (k : Nat)
    (h : ∀ m ∈ l, strcaseEq pm m = false) : phyLoop pm l k = -ENODEV := by
  induction l generalizing k with
  | nil => rfl
  | cons m rest ih =>
    unfold phyLoop
    rw [h m (List.mem_cons_self m rest)]
    simp only [Bool.false_eq_true, if_false]
    exact ih (k + 1) (fun x hx => h x (List.mem_cons_of_mem m hx))

lemma phyLoop_first_match (pm : String) (l : List String) :
    ∀ (i : Nat) (hi : i < l.length) (k : Nat),
      strcaseEq pm (l.get ⟨i, hi⟩) = true →
      (∀ j (hj : j < i), strcaseEq pm (l.get ⟨j, Nat.lt_trans hj hi⟩) = false) →
      phyLoop pm l k = ((k + i : Nat) : Int) := by
  induction l with
  | nil =>
    intro i hi
    exact absurd hi (by simp)
  | cons m rest ih =>
    intro i hi k hmatch hbefore
    cases i with
    | zero =>
      unfold phyLoop
      rw [show strcaseEq pm m = true from hmatch]
      simp
    | succ i =>
      unfold phyLoop
      rw [show strcaseEq pm m = false from hbefore 0 (Nat.succ_pos i)]
      simp only [Bool.false_eq_true, if_false]
      have hi' : i < rest.length := by
        simpa using hi
      have := ih i hi' (k + 1)
        (show strcaseEq pm (rest.get ⟨i, hi'⟩) = true from hmatch)
        (fun j hj => show strcaseEq pm (rest.get ⟨j, Nat.lt_trans hj hi'⟩) = false from
          hbefore (j + 1) (Nat.succ_lt_succ hj))
      rw [this]
      omega

/-- C9: of_get_phy_mode returns the index of the first case-insensitive match
of the string obtained from "phy-mode" (or, failing that, from
"phy-connection-type") in the mode table; with neither property present it
returns the -EINVAL of the tree reader, and with no matching entry -ENODEV. -/
theorem of_get_phy_mode_spec (phy_modes : List String) (np : OfNode) (pm : String) :
    ((np.strProp ("phy-mode") = none ∧ np.strProp ("phy-connection-type") = none) →
      of_get_phy_mode phy_modes np = -EINVAL) ∧
    ((np.strProp ("phy-mode") = some pm ∨
      (np.strProp ("phy-mode") = none ∧ np.strProp ("phy-connection-type") = some pm)) →
      ((∀ m ∈ phy_modes, strcaseEq pm m = false) →
        of_get_phy_mode phy_modes np = -ENODEV) ∧
      (∀ i (hi : i < phy_modes.length),
        strcaseEq pm (phy_modes.get ⟨i, hi⟩) = true →
        (∀ j (hj : j < i), strcaseEq pm (phy_modes.get ⟨j, Nat.lt_trans hj hi⟩) = false) →
        of_get_phy_mode phy_modes np = (i : Int))) := by
  constructor
  · intro ⟨h1, h2⟩
    unfold of_get_phy_mode
    simp only [h1, h2]
  · intro hsrc
    have hred : of_get_phy_mode phy_modes np = phyLoop pm phy_modes 0 := by
      unfold of_get_phy_mode
      rcases hsrc with h | ⟨h1, h2⟩
      · simp only [h]
      · simp only [h1, h2]
    constructor
    · intro hnone
      rw [hred]
      exact phyLoop_no_match pm phy_modes 0 hnone
    · intro i hi hmatch hbefore
      rw [hred, phyLoop_first_match pm phy_modes i hi 0 hmatch hbefore]
      omega

def exNodePhy : OfNode :=
  { prop := fun _ => none,
    strProp := fun name => if name = "phy-mode" then some ("RGmii") else none,
    u32Prop := fun _ => none }

/-- Witness for C9: "RGmii" matches table entry "rgmii" at index 2. -/
theorem of_get_phy_mode_spec_witness :
    of_get_phy_mode ["mii", "gmii", "rgmii"] exNodePhy = 2 := by
  have h := (of_get_phy_mode_spec ["mii", "gmii", "rgmii"] exNodePhy ("RGmii")).2
    (Or.inl (by decide))
  refine h.2 2 (by decide) (by decide) ?_
  intro j hj
  have hj01 : j = 0 ∨ j = 1 := by omega
  rcases hj01 with h | h <;> subst h
  · show strcaseEq ("RGmii") "mii" = false
    decide
  · show strcaseEq ("RGmii") "gmii" = false
    decide
